import Mathlib

/-!
# Verification of the `src/train.py` VAE training script

This file gives a shallow embedding of the training script of the
`inception_v3-vae-pytorch` repository and proves properties of its
orchestration: the per-batch order of operations, the shared ELBO loss,
the epoch loop, progress logging, the sample-image grid, the optimizer
selection, exception handling, and the frame property of evaluation.

The numerical engine (the network forward pass, automatic differentiation
and the optimizer update rule) lives in the external framework and is kept
abstract: an `Env` record carries those functions as parameters, and the
theorems hold for every instantiation.  Scalars are modelled as `ℚ`.
Observable actions (prints, file writes) are modelled as an event trace.
-/

deriving instance DecidableEq for Except

namespace VaeTrain

/-- Configuration record mirroring `utils.general.TrainingConfig` as it is
populated in `src/train.py` (lines 42-43). -/
structure TrainingConfig where
  cuda : Bool
  batch_size : ℕ
  log_interval : ℕ
  epochs : ℕ
  output_dir_name : String
  deriving DecidableEq

/-- Configuration record mirroring `utils.general.DatasetConfig`
(`src/train.py` line 44: `image_size=96, channels=3`). -/
structure DatasetConfig where
  image_size : ℕ
  channels : ℕ
  deriving DecidableEq

/-- The only failure modelled inside the training loop: a tensor `view`
with an incompatible shape (`src/train.py` line 115 reshapes the
reconstruction batch to `config.batch_size` images). -/
inductive TrainError where
  | shapeMismatch (expected got : ℕ)
  deriving DecidableEq

/-- Mutable network/optimizer state threaded through the loops.
`params` are the model parameters, `grads` the accumulated gradients,
`optState` the optimizer's internal state, and `trainingMode` the flag
toggled by `model.train()` / `model.eval()`. -/
structure NetState (P O : Type) where
  params : P
  grads : P
  optState : O
  trainingMode : Bool
  deriving DecidableEq

/-- The abstract numerical environment: the model's forward pass
(returning reconstruction, mean and log-variance), the pointwise
reconstruction penalty and exponential used by the loss, autodiff for the
loss, gradient-accumulator operations, and the optimizer update.
All of these live in the external framework / model files and are
universally quantified in every theorem. -/
structure Env (P O I : Type) where
  forward : P → List I → List I × List ℚ × List ℚ
  recon : I → I → ℚ
  exp : ℚ → ℚ
  gradELBO : P → List I → P
  gradZero : P
  gradAdd : P → P → P
  optStep : O → P → P → O × P

/-- A data loader: its list of batches and `len(loader.dataset)`. -/
structure Loader (I : Type) where
  batches : List (List I)
  datasetSize : ℕ

/-- Observable events of a run: one constructor per side-effecting or
loss-evaluating operation of `src/train.py`. -/
inductive Event (I : Type) where
  | forwardPass (epoch batchIdx : ℕ)
  | lossEval (epoch batchIdx : ℕ) (value : ℚ)
  | zeroGrad (epoch batchIdx : ℕ)
  | backward (epoch batchIdx : ℕ)
  | optStep (epoch batchIdx : ℕ)
  | logLine (epoch batchIdx progress : ℕ) (perSampleLoss : ℚ)
  | epochSummary (epoch : ℕ) (avgLoss : ℚ)
  | evalForward (epoch batchIdx : ℕ)
  | evalLoss (epoch batchIdx : ℕ) (value : ℚ)
  | saveImage (file : String) (grid : List I) (nrow : ℕ)
  | testSummary (epoch : ℕ) (avgLoss : ℚ)
  | saveTrainingData (dir : String) (trainHist testHist : List ℚ)
  | printTrace (err : TrainError)
  | makeDir (dir : String)
  deriving DecidableEq

/-- The shape of an event with numeric payloads erased; used to state
ordering properties of traces. -/
inductive EventKind where
  | forwardPass (epoch batchIdx : ℕ)
  | lossEval (epoch batchIdx : ℕ)
  | zeroGrad (epoch batchIdx : ℕ)
  | backward (epoch batchIdx : ℕ)
  | optStep (epoch batchIdx : ℕ)
  | logLine (epoch batchIdx : ℕ)
  | epochSummary (epoch : ℕ)
  | evalForward (epoch batchIdx : ℕ)
  | evalLoss (epoch batchIdx : ℕ)
  | saveImage
  | testSummary (epoch : ℕ)
  | saveTrainingData
  | printTrace
  | makeDir
  deriving DecidableEq

variable {P O I : Type}

/-- Forget the payload of an event. -/
def Event.kind : Event I → EventKind
  | .forwardPass e i => .forwardPass e i
  | .lossEval e i _ => .lossEval e i
  | .zeroGrad e i => .zeroGrad e i
  | .backward e i => .backward e i
  | .optStep e i => .optStep e i
  | .logLine e i _ _ => .logLine e i
  | .epochSummary e _ => .epochSummary e
  | .evalForward e i => .evalForward e i
  | .evalLoss e i _ => .evalLoss e i
  | .saveImage _ _ _ => .saveImage
  | .testSummary e _ => .testSummary e
  | .saveTrainingData _ _ _ => .saveTrainingData
  | .printTrace _ => .printTrace
  | .makeDir _ => .makeDir

/-- Predicate true exactly on the gradient-manipulating operations
(`optimizer.zero_grad()`, `loss.backward()`, `optimizer.step()`). -/
def Event.isGradientOp : Event I → Bool
  | .zeroGrad _ _ => true
  | .backward _ _ => true
  | .optStep _ _ => true
  | _ => false

/-- Predicate true exactly on `save_training_data` events. -/
def Event.isSaveTrainingData : Event I → Bool
  | .saveTrainingData _ _ _ => true
  | _ => false

/-- Predicate true exactly on `save_image` events. -/
def Event.isSaveImage : Event I → Bool
  | .saveImage _ _ _ => true
  | _ => false

/-- Modelled from the spec: `variational_ELBO` is defined in
`utils/torch.py`, which is not part of the provided sources; the spec
describes it as "reconstruction term + KL-divergence term between the
approximate posterior and a standard normal prior".  The reconstruction
term sums a pointwise penalty `recon` over the reconstructed and original
images; `klDivergence` is the closed form of
KL(N(mu, exp(log_var)) ‖ N(0, 1)), with the framework's exponential
passed in as `exp`. -/
def reconstructionLoss (recon : I → I → ℚ) (recon_batch data_batch : List I) : ℚ :=
  (List.zipWith recon recon_batch data_batch).sum

/-- Modelled from the spec: closed-form KL divergence between the diagonal
Gaussian posterior N(mu, exp(log_var)) and the standard normal prior,
`-1/2 * Σ (1 + log_var - mu² - exp log_var)`. -/
def klDivergence (exp : ℚ → ℚ) (mu log_var : List ℚ) : ℚ :=
  -(1 / 2) * (List.zipWith (fun m l => 1 + l - m ^ 2 - exp l) mu log_var).sum

/-- Modelled from the spec: the ELBO loss, a reconstruction term plus the
KL-divergence term. -/
def variational_ELBO (recon : I → I → ℚ) (exp : ℚ → ℚ)
    (recon_batch data_batch : List I) (mu log_var : List ℚ) : ℚ :=
  reconstructionLoss recon recon_batch data_batch + klDivergence exp mu log_var

/-- Result of processing one training batch. -/
structure StepResult (P O I : Type) where
  state : NetState P O
  loss : ℚ
  events : List (Event I)

/-- One iteration of the batch loop of `train` (`src/train.py` lines
70-92): forward pass, ELBO loss, `zero_grad`, `backward`, optimizer step,
then the conditional progress log. -/
def trainStep (env : Env P O I) (cfg : TrainingConfig) (current_epoch batch_idx : ℕ)
    (st : NetState P O) (data_batch : List I) : StepResult P O I :=
  let fwd := env.forward st.params data_batch
  let recon_batch := fwd.1
  let mu := fwd.2.1
  let log_var := fwd.2.2
  let loss := variational_ELBO env.recon env.exp recon_batch data_batch mu log_var
  -- optimizer.zero_grad()
  let gradsZeroed := env.gradZero
  -- loss.backward(): accumulate the gradient of the loss
  let gradsAfter := env.gradAdd gradsZeroed (env.gradELBO st.params data_batch)
  -- optimizer.step()
  let stepped := env.optStep st.optState st.params gradsAfter
  let st' : NetState P O :=
    { params := stepped.2, grads := gradsAfter, optState := stepped.1,
      trainingMode := st.trainingMode }
  let evs : List (Event I) :=
    [Event.forwardPass current_epoch batch_idx,
     Event.lossEval current_epoch batch_idx loss,
     Event.zeroGrad current_epoch batch_idx,
     Event.backward current_epoch batch_idx,
     Event.optStep current_epoch batch_idx] ++
    (if batch_idx % cfg.log_interval = 0 then
      [Event.logLine current_epoch batch_idx (batch_idx * data_batch.length)
        (loss / (data_batch.length : ℚ))]
     else [])
  ⟨st', loss, evs⟩

/-- Accumulated result of the training batch loop. -/
structure TrainLoopResult (P O I : Type) where
  state : NetState P O
  totalLoss : ℚ
  epochLoss : List ℚ
  events : List (Event I)

/-- The `for batch_idx, (data_batch, _) in enumerate(train_loader)` loop:
threads the network state, accumulates `train_loss`, appends
`loss.item() / len(data_batch)` to `epoch_loss`, and concatenates the
per-batch events. -/
def trainLoop (env : Env P O I) (cfg : TrainingConfig) (current_epoch : ℕ) :
    ℕ → NetState P O → List (List I) → TrainLoopResult P O I
  | _, st, [] => ⟨st, 0, [], []⟩
  | i, st, b :: bs =>
    let step := trainStep env cfg current_epoch i st b
    let rest := trainLoop env cfg current_epoch (i + 1) step.state bs
    ⟨rest.state, step.loss + rest.totalLoss,
      step.loss / (b.length : ℚ) :: rest.epochLoss,
      step.events ++ rest.events⟩

/-- Result of the `train` function: the updated state, the returned
`epoch_loss` list, and the trace. -/
structure TrainOut (P O I : Type) where
  state : NetState P O
  epoch_loss : List ℚ
  events : List (Event I)

/-- The function `train(current_epoch)` (`src/train.py` lines 66-95): switch to
training mode, run the batch loop, print the epoch's average loss, and
return the per-sample loss list. -/
def train (env : Env P O I) (cfg : TrainingConfig) (train_loader : Loader I)
    (current_epoch : ℕ) (st : NetState P O) : TrainOut P O I :=
  let st0 : NetState P O :=
    { params := st.params, grads := st.grads, optState := st.optState,
      trainingMode := true }
  let r := trainLoop env cfg current_epoch 0 st0 train_loader.batches
  ⟨r.state, r.epochLoss,
    r.events ++
      [Event.epochSummary current_epoch (r.totalLoss / (train_loader.datasetSize : ℚ))]⟩

/-- The reshape `Tensor.view(batch_size, channels, image_size, image_size)`
(`src/train.py` line 115): reinterprets the reconstruction batch as
`batch_size` images; raises a shape error when the number of images does
not match. -/
def tensorView (expected : ℕ) (xs : List I) : Except TrainError (List I) :=
  if xs.length = expected then Except.ok xs
  else Except.error (TrainError.shapeMismatch expected xs.length)

/-- The file name `config.output_dir_name + '/reconstruction_' +
str(current_epoch) + '.png'` of `src/train.py` line 118. -/
def reconstructionFile (dir : String) (current_epoch : ℕ) : String :=
  dir ++ "/reconstruction_" ++ Nat.repr current_epoch ++ ".png"

/-- Result of the evaluation batch loop: its trace and either the
accumulated `test_loss` or the first exception. -/
structure TestLoopOut (I : Type) where
  events : List (Event I)
  result : Except TrainError ℚ

/-- The `for i, (data_batch, _) in enumerate(test_loader)` loop of `test`
(`src/train.py` lines 103-118): forward pass and loss accumulation for
every batch; for the first batch (`i == 0`) a comparison grid of
`n = min(len(data_batch), 8)` originals and the first `n` reshaped
reconstructions is saved with `nrow = n`. -/
def testLoop (env : Env P O I) (cfg : TrainingConfig) (current_epoch : ℕ)
    (params : P) : ℕ → List (List I) → TestLoopOut I
  | _, [] => ⟨[], Except.ok 0⟩
  | 0, b :: bs =>
    -- `i == 0`: additionally build and save the comparison grid
    let fwd := env.forward params b
    let recon_batch := fwd.1
    let mu := fwd.2.1
    let log_var := fwd.2.2
    let loss := variational_ELBO env.recon env.exp recon_batch b mu log_var
    match tensorView cfg.batch_size recon_batch with
    | Except.error err =>
      ⟨[Event.evalForward current_epoch 0, Event.evalLoss current_epoch 0 loss],
        Except.error err⟩
    | Except.ok reshaped =>
      let n := min b.length 8
      let comparison := b.take n ++ reshaped.take n
      let rest := testLoop env cfg current_epoch params 1 bs
      ⟨[Event.evalForward current_epoch 0, Event.evalLoss current_epoch 0 loss] ++
        [Event.saveImage (reconstructionFile cfg.output_dir_name current_epoch)
          comparison n] ++ rest.events,
        rest.result.map (fun t => loss + t)⟩
  | i + 1, b :: bs =>
    let fwd := env.forward params b
    let recon_batch := fwd.1
    let mu := fwd.2.1
    let log_var := fwd.2.2
    let loss := variational_ELBO env.recon env.exp recon_batch b mu log_var
    let rest := testLoop env cfg current_epoch params (i + 2) bs
    ⟨[Event.evalForward current_epoch (i + 1),
      Event.evalLoss current_epoch (i + 1) loss] ++ rest.events,
      rest.result.map (fun t => loss + t)⟩

/-- Result of the `test` function. -/
structure TestOut (P O I : Type) where
  state : NetState P O
  events : List (Event I)
  result : Except TrainError ℚ

/-- The function `test(current_epoch)` (`src/train.py` lines 98-122): switch to
evaluation mode, run the no-grad batch loop, then divide the accumulated
loss by the dataset size, print it and return it. -/
def test (env : Env P O I) (cfg : TrainingConfig) (test_loader : Loader I)
    (current_epoch : ℕ) (st : NetState P O) : TestOut P O I :=
  let st0 : NetState P O :=
    { params := st.params, grads := st.grads, optState := st.optState,
      trainingMode := false }
  let r := testLoop env cfg current_epoch st0.params 0 test_loader.batches
  match r.result with
  | Except.error e => ⟨st0, r.events, Except.error e⟩
  | Except.ok total =>
    let test_loss := total / (test_loader.datasetSize : ℚ)
    ⟨st0, r.events ++ [Event.testSummary current_epoch test_loss],
      Except.ok test_loss⟩

/-- The values live at the end of `start_training`: the final network
state and the two loss histories. -/
structure TrainingData (P O : Type) where
  state : NetState P O
  historic_training_loss : List ℚ
  historic_testing_loss : List ℚ
  deriving DecidableEq

/-- Result of `start_training` (and of the epoch loop): the trace and
either the final histories or the first exception. -/
structure RunOut (P O I : Type) where
  events : List (Event I)
  result : Except TrainError (TrainingData P O)

/-- The `for epoch in range(1, config.epochs + 1)` loop of
`start_training` (`src/train.py` lines 130-135): each epoch runs `train`
then `test`, extends `historic_training_loss` with the epoch's per-sample
losses and appends the epoch's test loss; an exception aborts the loop. -/
def trainingEpochs (env : Env P O I) (cfg : TrainingConfig)
    (train_loader test_loader : Loader I) :
    ℕ → ℕ → NetState P O → List ℚ → List ℚ → RunOut P O I
  | _, 0, st, trainHist, testHist =>
    ⟨[], Except.ok ⟨st, trainHist, testHist⟩⟩
  | epoch, remaining + 1, st, trainHist, testHist =>
    let tr := train env cfg train_loader epoch st
    let te := test env cfg test_loader epoch tr.state
    match te.result with
    | Except.error e => ⟨tr.events ++ te.events, Except.error e⟩
    | Except.ok epoch_test_loss =>
      let rest := trainingEpochs env cfg train_loader test_loader
        (epoch + 1) remaining te.state
        (trainHist ++ tr.epoch_loss) (testHist ++ [epoch_test_loss])
      ⟨tr.events ++ te.events ++ rest.events, rest.result⟩

/-- The function `start_training()` (`src/train.py` lines 125-137): run the epoch
loop starting from epoch 1 with empty histories, then persist the
histories with `save_training_data`. -/
def start_training (env : Env P O I) (cfg : TrainingConfig)
    (train_loader test_loader : Loader I) (st : NetState P O) : RunOut P O I :=
  let r := trainingEpochs env cfg train_loader test_loader 1 cfg.epochs st [] []
  match r.result with
  | Except.error e => ⟨r.events, Except.error e⟩
  | Except.ok d =>
    ⟨r.events ++
      [Event.saveTrainingData cfg.output_dir_name
        d.historic_training_loss d.historic_testing_loss],
      Except.ok d⟩

/-- What `main` returns: `None` on success, or the formatted traceback of
a caught exception (modelled by the exception value). -/
inductive MainResult where
  | finished
  | caught (e : TrainError)
  deriving DecidableEq

/-- Result of `main`. -/
structure MainOut (I : Type) where
  events : List (Event I)
  result : MainResult

/-- The function `main()` (`src/train.py` lines 141-148): create the output directory,
run `start_training`, and catch any exception, printing its traceback and
returning it. -/
def main (env : Env P O I) (cfg : TrainingConfig)
    (train_loader test_loader : Loader I) (st : NetState P O) : MainOut I :=
  let r := start_training env cfg train_loader test_loader st
  match r.result with
  | Except.ok _ => ⟨Event.makeDir cfg.output_dir_name :: r.events, MainResult.finished⟩
  | Except.error e =>
    ⟨Event.makeDir cfg.output_dir_name :: (r.events ++ [Event.printTrace e]),
      MainResult.caught e⟩

/-- The optimizer chosen at `src/train.py` lines 55-60. -/
inductive OptimizerKind where
  | adam
  | adagrad
  | adadelta
  deriving DecidableEq

/-- The module-level `assert args.optimizer in ['adam', 'adagrad',
'adadelta']` failing. -/
inductive StartupError where
  | assertionError
  deriving DecidableEq

/-- Lines 54-60 of `src/train.py`: assert that the optimizer name is one of
the three supported ones, then construct the corresponding optimizer with
the configured learning rate. -/
def selectOptimizer (name : String) (lr : ℚ) :
    Except StartupError (OptimizerKind × ℚ) :=
  if name = "adam" ∨ name = "adagrad" ∨ name = "adadelta" then
    Except.ok
      ((if name = "adam" then OptimizerKind.adam
        else if name = "adagrad" then OptimizerKind.adagrad
        else OptimizerKind.adadelta), lr)
  else Except.error StartupError.assertionError

/-- The whole program: the module-level optimizer selection runs first
(so an invalid name aborts before any training), then `main`. -/
def runProgram (name : String) (lr : ℚ) (env : Env P O I)
    (cfg : TrainingConfig) (train_loader test_loader : Loader I)
    (st : NetState P O) :
    Except StartupError (OptimizerKind × ℚ × MainOut I) :=
  match selectOptimizer name lr with
  | Except.error e => Except.error e
  | Except.ok (k, l) =>
    Except.ok (k, l, main env cfg train_loader test_loader st)

/-- Projection used to state the train-then-test ordering of summaries:
`epochSummary e` becomes `(e, true)`, `testSummary e` becomes
`(e, false)`, everything else is dropped. -/
def summaryTag : Event I → Option (ℕ × Bool)
  | .epochSummary e _ => some (e, true)
  | .testSummary e _ => some (e, false)
  | _ => none

/-- The sequence of training / testing pass summaries of a trace. -/
def summaryTags (evs : List (Event I)) : List (ℕ × Bool) :=
  evs.filterMap summaryTag

/-- The shapes of the events emitted for one training batch. -/
def trainBatchKinds (cfg : TrainingConfig) (ep i : ℕ) : List EventKind :=
  [EventKind.forwardPass ep i, EventKind.lossEval ep i, EventKind.zeroGrad ep i,
   EventKind.backward ep i, EventKind.optStep ep i] ++
  (if i % cfg.log_interval = 0 then [EventKind.logLine ep i] else [])

/-! ## Concrete instantiation used to witness the theorems -/

/-- A tiny concrete environment: the reconstruction is the input itself,
the posterior is N(0, 1) (so the loss is 0 everywhere), gradients vanish
and the optimizer is the identity. -/
def cEnv : Env ℚ ℚ ℕ where
  forward := fun _ b => (b, [0], [0])
  recon := fun x y => ((x : ℚ) - (y : ℚ)) ^ 2
  exp := fun q => 1 + q
  gradELBO := fun _ _ => 0
  gradZero := 0
  gradAdd := fun a b => a + b
  optStep := fun o p _ => (o, p)

/-- A variant whose forward pass returns an empty reconstruction, so the
`view` in `test` raises a shape error. -/
def cEnvBad : Env ℚ ℚ ℕ :=
  { cEnv with forward := fun _ _ => ([], [0], [0]) }

/-- A tiny concrete configuration: 2 epochs, batch size 1. -/
def cCfg : TrainingConfig :=
  { cuda := false, batch_size := 1, log_interval := 1, epochs := 2,
    output_dir_name := "results" }

/-- The concrete configuration with 3 epochs. -/
def cCfg3 : TrainingConfig :=
  { cCfg with epochs := 3 }

/-- A one-batch training loader. -/
def cTrainLoader : Loader ℕ := ⟨[[3]], 1⟩

/-- A one-batch test loader. -/
def cTestLoader : Loader ℕ := ⟨[[5]], 1⟩

/-- The initial network state of the concrete runs. -/
def cSt : NetState ℚ ℚ := ⟨0, 0, 0, false⟩

/-- The final data of the 2-epoch concrete run. -/
def cData : TrainingData ℚ ℚ := ⟨⟨0, 0, 0, false⟩, [0, 0], [0, 0]⟩

/-! ## Helper lemmas about the training batch loop -/

theorem trainStep_events_kinds (env : Env P O I) (cfg : TrainingConfig)
    (ep i : ℕ) (st : NetState P O) (b : List I) :
    (trainStep env cfg ep i st b).events.map Event.kind = trainBatchKinds cfg ep i := by
  by_cases h : i % cfg.log_interval = 0 <;>
    simp [trainStep, trainBatchKinds, Event.kind, h]

theorem trainLoop_events_kinds (env : Env P O I) (cfg : TrainingConfig) (ep : ℕ) :
    ∀ (bs : List (List I)) (i : ℕ) (st : NetState P O),
      (trainLoop env cfg ep i st bs).events.map Event.kind =
        (List.range' i bs.length).flatMap (trainBatchKinds cfg ep)
  | [], i, st => by simp [trainLoop]
  | b :: bs, i, st => by
    simp only [trainLoop, List.length_cons, List.range'_succ, List.flatMap_cons,
      List.map_append, trainStep_events_kinds,
      trainLoop_events_kinds env cfg ep bs (i + 1)]

theorem trainLoop_epochLoss_length (env : Env P O I) (cfg : TrainingConfig) (ep : ℕ) :
    ∀ (bs : List (List I)) (i : ℕ) (st : NetState P O),
      (trainLoop env cfg ep i st bs).epochLoss.length = bs.length
  | [], i, st => by simp [trainLoop]
  | b :: bs, i, st => by
    simp [trainLoop, trainLoop_epochLoss_length env cfg ep bs (i + 1)]

theorem summaryTags_trainStep (env : Env P O I) (cfg : TrainingConfig)
    (ep i : ℕ) (st : NetState P O) (b : List I) :
    summaryTags (trainStep env cfg ep i st b).events = [] := by
  by_cases h : i % cfg.log_interval = 0 <;>
    simp [trainStep, summaryTags, summaryTag, h]

theorem summaryTags_trainLoop (env : Env P O I) (cfg : TrainingConfig) (ep : ℕ) :
    ∀ (bs : List (List I)) (i : ℕ) (st : NetState P O),
      summaryTags (trainLoop env cfg ep i st bs).events = []
  | [], i, st => by simp [trainLoop, summaryTags]
  | b :: bs, i, st => by
    have h1 := summaryTags_trainStep env cfg ep i st b
    have h2 := summaryTags_trainLoop env cfg ep bs (i + 1)
      (trainStep env cfg ep i st b).state
    simp only [trainLoop, summaryTags, List.filterMap_append] at *
    simp [h1, h2]

theorem countP_saveData_trainStep (env : Env P O I) (cfg : TrainingConfig)
    (ep i : ℕ) (st : NetState P O) (b : List I) :
    (trainStep env cfg ep i st b).events.countP Event.isSaveTrainingData = 0 := by
  by_cases h : i % cfg.log_interval = 0 <;>
    simp [trainStep, Event.isSaveTrainingData, List.countP_cons, List.countP_nil, h]

theorem countP_saveImage_trainStep (env : Env P O I) (cfg : TrainingConfig)
    (ep i : ℕ) (st : NetState P O) (b : List I) :
    (trainStep env cfg ep i st b).events.countP Event.isSaveImage = 0 := by
  by_cases h : i % cfg.log_interval = 0 <;>
    simp [trainStep, Event.isSaveImage, List.countP_cons, List.countP_nil, h]

theorem countP_saveData_trainLoop (env : Env P O I) (cfg : TrainingConfig) (ep : ℕ) :
    ∀ (bs : List (List I)) (i : ℕ) (st : NetState P O),
      (trainLoop env cfg ep i st bs).events.countP Event.isSaveTrainingData = 0
  | [], i, st => by simp [trainLoop]
  | b :: bs, i, st => by
    simp [trainLoop, List.countP_append, countP_saveData_trainStep,
      countP_saveData_trainLoop env cfg ep bs (i + 1)]

theorem countP_saveImage_trainLoop (env : Env P O I) (cfg : TrainingConfig) (ep : ℕ) :
    ∀ (bs : List (List I)) (i : ℕ) (st : NetState P O),
      (trainLoop env cfg ep i st bs).events.countP Event.isSaveImage = 0
  | [], i, st => by simp [trainLoop]
  | b :: bs, i, st => by
    simp [trainLoop, List.countP_append, countP_saveImage_trainStep,
      countP_saveImage_trainLoop env cfg ep bs (i + 1)]

/-! ## Helper lemmas about the `train` wrapper -/

theorem train_events_kinds (env : Env P O I) (cfg : TrainingConfig)
    (trainL : Loader I) (ep : ℕ) (st : NetState P O) :
    (train env cfg trainL ep st).events.map Event.kind =
      (List.range' 0 trainL.batches.length).flatMap (trainBatchKinds cfg ep) ++
        [EventKind.epochSummary ep] := by
  simp [train, trainLoop_events_kinds, Event.kind]

theorem summaryTags_train (env : Env P O I) (cfg : TrainingConfig)
    (trainL : Loader I) (ep : ℕ) (st : NetState P O) :
    summaryTags (train env cfg trainL ep st).events = [(ep, true)] := by
  have h := summaryTags_trainLoop env cfg ep trainL.batches 0
    { params := st.params, grads := st.grads, optState := st.optState,
      trainingMode := true }
  simp only [train, summaryTags, List.filterMap_append] at *
  simp [h, summaryTag]

theorem countP_saveData_train (env : Env P O I) (cfg : TrainingConfig)
    (trainL : Loader I) (ep : ℕ) (st : NetState P O) :
    (train env cfg trainL ep st).events.countP Event.isSaveTrainingData = 0 := by
  simp [train, List.countP_append, countP_saveData_trainLoop,
    Event.isSaveTrainingData, List.countP_cons, List.countP_nil]

theorem countP_saveImage_train (env : Env P O I) (cfg : TrainingConfig)
    (trainL : Loader I) (ep : ℕ) (st : NetState P O) :
    (train env cfg trainL ep st).events.countP Event.isSaveImage = 0 := by
  simp [train, List.countP_append, countP_saveImage_trainLoop,
    Event.isSaveImage, List.countP_cons, List.countP_nil]

theorem train_epoch_loss_length (env : Env P O I) (cfg : TrainingConfig)
    (trainL : Loader I) (ep : ℕ) (st : NetState P O) :
    (train env cfg trainL ep st).epoch_loss.length = trainL.batches.length := by
  simp [train, trainLoop_epochLoss_length]

/-! ## Helper lemmas about the evaluation loop -/

theorem testLoop_no_gradient_op (env : Env P O I) (cfg : TrainingConfig)
    (ep : ℕ) (p : P) :
    ∀ (bs : List (List I)) (i : ℕ) (ev : Event I),
      ev ∈ (testLoop env cfg ep p i bs).events → ev.isGradientOp = false
  | [], i, ev => by simp [testLoop]
  | b :: bs, 0, ev => by
    intro hev
    rcases hview : tensorView cfg.batch_size (env.forward p b).1 with e | xs <;>
      simp only [testLoop, hview] at hev <;> simp at hev
    · rcases hev with h | h <;> subst h <;> rfl
    · rcases hev with h | h | h | h
      · subst h; rfl
      · subst h; rfl
      · subst h; rfl
      · exact testLoop_no_gradient_op env cfg ep p bs 1 ev h
  | b :: bs, i + 1, ev => by
    intro hev
    simp only [testLoop] at hev
    simp at hev
    rcases hev with h | h | h
    · subst h; rfl
    · subst h; rfl
    · exact testLoop_no_gradient_op env cfg ep p bs (i + 2) ev h

theorem summaryTags_testLoop (env : Env P O I) (cfg : TrainingConfig)
    (ep : ℕ) (p : P) :
    ∀ (bs : List (List I)) (i : ℕ),
      summaryTags (testLoop env cfg ep p i bs).events = []
  | [], i => by simp [testLoop, summaryTags]
  | b :: bs, 0 => by
    have ih := summaryTags_testLoop env cfg ep p bs 1
    rcases hview : tensorView cfg.batch_size (env.forward p b).1 with e | xs <;>
      simp only [testLoop, hview] <;>
      simp [summaryTags, summaryTag, List.filterMap_append] at ih ⊢
    exact ih
  | b :: bs, i + 1 => by
    have ih := summaryTags_testLoop env cfg ep p bs (i + 2)
    simp only [testLoop]
    simp [summaryTags, summaryTag, List.filterMap_append] at ih ⊢
    exact ih

theorem countP_saveData_testLoop (env : Env P O I) (cfg : TrainingConfig)
    (ep : ℕ) (p : P) :
    ∀ (bs : List (List I)) (i : ℕ),
      (testLoop env cfg ep p i bs).events.countP Event.isSaveTrainingData = 0
  | [], i => by simp [testLoop]
  | b :: bs, 0 => by
    have ih := countP_saveData_testLoop env cfg ep p bs 1
    rcases hview : tensorView cfg.batch_size (env.forward p b).1 with e | xs <;>
      simp only [testLoop, hview] <;>
      simp [List.countP_append, List.countP_cons, List.countP_nil,
        Event.isSaveTrainingData, ih]
  | b :: bs, i + 1 => by
    have ih := countP_saveData_testLoop env cfg ep p bs (i + 2)
    simp only [testLoop]
    simp [List.countP_append, List.countP_cons, List.countP_nil,
      Event.isSaveTrainingData, ih]

theorem countP_saveImage_testLoop_pos (env : Env P O I) (cfg : TrainingConfig)
    (ep : ℕ) (p : P) :
    ∀ (bs : List (List I)) (i : ℕ),
      (testLoop env cfg ep p (i + 1) bs).events.countP Event.isSaveImage = 0
  | [], i => by simp [testLoop]
  | b :: bs, i => by
    have ih := countP_saveImage_testLoop_pos env cfg ep p bs (i + 1)
    simp only [testLoop]
    simp [List.countP_append, List.countP_cons, List.countP_nil,
      Event.isSaveImage, ih]

theorem countP_saveImage_testLoop_ok (env : Env P O I) (cfg : TrainingConfig)
    (ep : ℕ) (p : P) (b : List I) (bs : List (List I)) (t : ℚ)
    (h : (testLoop env cfg ep p 0 (b :: bs)).result = Except.ok t) :
    (testLoop env cfg ep p 0 (b :: bs)).events.countP Event.isSaveImage = 1 := by
  have hp := countP_saveImage_testLoop_pos env cfg ep p bs 0
  rcases hview : tensorView cfg.batch_size (env.forward p b).1 with e | xs <;>
    simp only [testLoop, hview] at h ⊢
  · simp at h
  · simp [List.countP_append, List.countP_cons, List.countP_nil,
      Event.isSaveImage, hp]

/-- On a successful pass, the accumulated `test_loss` is the sum of the
ELBO values of all batches, computed at the fixed parameters `p`. -/
theorem testLoop_ok_sum (env : Env P O I) (cfg : TrainingConfig)
    (ep : ℕ) (p : P) :
    ∀ (bs : List (List I)) (i : ℕ) (t : ℚ),
      (testLoop env cfg ep p i bs).result = Except.ok t →
      t = (bs.map (fun d =>
            variational_ELBO env.recon env.exp (env.forward p d).1 d
              (env.forward p d).2.1 (env.forward p d).2.2)).sum
  | [], i, t => by
    intro h
    simp [testLoop] at h
    simp [← h]
  | b :: bs, 0, t => by
    intro h
    rcases hview : tensorView cfg.batch_size (env.forward p b).1 with e | xs <;>
      simp only [testLoop, hview] at h
    · simp at h
    · rcases hrest : (testLoop env cfg ep p 1 bs).result with e' | t' <;>
        rw [hrest] at h <;> simp [Except.map] at h
      have ih := testLoop_ok_sum env cfg ep p bs 1 t' hrest
      simp [← h, ih]
  | b :: bs, i + 1, t => by
    intro h
    simp only [testLoop] at h
    rcases hrest : (testLoop env cfg ep p (i + 2) bs).result with e' | t' <;>
      rw [hrest] at h <;> simp [Except.map] at h
    have ih := testLoop_ok_sum env cfg ep p bs (i + 2) t' hrest
    simp [← h, ih]

/-- On a successful pass, every batch of the loader was evaluated. -/
theorem testLoop_ok_evalForward (env : Env P O I) (cfg : TrainingConfig)
    (ep : ℕ) (p : P) :
    ∀ (bs : List (List I)) (i : ℕ) (t : ℚ) (m : ℕ),
      (testLoop env cfg ep p i bs).result = Except.ok t →
      m < bs.length →
      Event.evalForward ep (i + m) ∈ (testLoop env cfg ep p i bs).events
  | [], i, t, m => by intro _ hm; simp at hm
  | b :: bs, 0, t, m => by
    intro h hm
    rcases hview : tensorView cfg.batch_size (env.forward p b).1 with e | xs <;>
      simp only [testLoop, hview] at h ⊢
    · simp at h
    · rcases hrest : (testLoop env cfg ep p 1 bs).result with e' | t' <;>
        rw [hrest] at h <;> simp [Except.map] at h
      rcases m with _ | m
      · simp
      · have ih := testLoop_ok_evalForward env cfg ep p bs 1 t' m hrest
          (Nat.lt_of_succ_lt_succ hm)
        have harr : 1 + m = 0 + (m + 1) := by omega
        rw [harr] at ih
        simp only [List.append_assoc, List.mem_append] at ih ⊢
        exact Or.inr (Or.inr ih)
  | b :: bs, i + 1, t, m => by
    intro h hm
    simp only [testLoop] at h ⊢
    rcases hrest : (testLoop env cfg ep p (i + 2) bs).result with e' | t' <;>
      rw [hrest] at h <;> simp [Except.map] at h
    rcases m with _ | m
    · simp
    · have ih := testLoop_ok_evalForward env cfg ep p bs (i + 2) t' m hrest
        (Nat.lt_of_succ_lt_succ hm)
      have harr : i + 2 + m = i + 1 + (m + 1) := by omega
      rw [harr] at ih
      simp only [List.mem_append] at ih ⊢
      exact Or.inr ih

/-! ## Helper lemmas about the `test` wrapper -/

theorem test_state (env : Env P O I) (cfg : TrainingConfig) (testL : Loader I)
    (ep : ℕ) (st : NetState P O) :
    (test env cfg testL ep st).state =
      { params := st.params, grads := st.grads, optState := st.optState,
        trainingMode := false } := by
  rcases hres : (testLoop env cfg ep st.params 0 testL.batches).result with e | l <;>
    simp [test, hres]

theorem test_no_gradient_op (env : Env P O I) (cfg : TrainingConfig)
    (testL : Loader I) (ep : ℕ) (st : NetState P O) (ev : Event I)
    (hev : ev ∈ (test env cfg testL ep st).events) : ev.isGradientOp = false := by
  rcases hres : (testLoop env cfg ep st.params 0 testL.batches).result with e | l <;>
    simp only [test, hres] at hev
  · exact testLoop_no_gradient_op env cfg ep st.params testL.batches 0 ev hev
  · simp only [List.mem_append, List.mem_singleton] at hev
    rcases hev with h | h
    · exact testLoop_no_gradient_op env cfg ep st.params testL.batches 0 ev h
    · subst h; rfl

theorem summaryTags_test_ok (env : Env P O I) (cfg : TrainingConfig)
    (testL : Loader I) (ep : ℕ) (st : NetState P O) (l : ℚ)
    (h : (test env cfg testL ep st).result = Except.ok l) :
    summaryTags (test env cfg testL ep st).events = [(ep, false)] := by
  have hl := summaryTags_testLoop env cfg ep st.params testL.batches 0
  rcases hres : (testLoop env cfg ep st.params 0 testL.batches).result with e | l' <;>
    simp only [test, hres] at h ⊢
  · simp at h
  · simp only [summaryTags, List.filterMap_append] at hl ⊢
    simp [hl, summaryTags, summaryTag]

theorem countP_saveData_test (env : Env P O I) (cfg : TrainingConfig)
    (testL : Loader I) (ep : ℕ) (st : NetState P O) :
    (test env cfg testL ep st).events.countP Event.isSaveTrainingData = 0 := by
  have hl := countP_saveData_testLoop env cfg ep st.params testL.batches 0
  rcases hres : (testLoop env cfg ep st.params 0 testL.batches).result with e | l <;>
    simp [test, hres, List.countP_append, List.countP_cons, List.countP_nil,
      Event.isSaveTrainingData, hl]

theorem countP_saveImage_test_ok (env : Env P O I) (cfg : TrainingConfig)
    (testL : Loader I) (ep : ℕ) (st : NetState P O) (l : ℚ)
    (b : List I) (bs : List (List I)) (hb : testL.batches = b :: bs)
    (h : (test env cfg testL ep st).result = Except.ok l) :
    (test env cfg testL ep st).events.countP Event.isSaveImage = 1 := by
  rcases hres : (testLoop env cfg ep st.params 0 testL.batches).result with e | l' <;>
    simp only [test, hres] at h ⊢
  · simp at h
  · have h1 : (testLoop env cfg ep st.params 0 (b :: bs)).events.countP
        Event.isSaveImage = 1 := by
      apply countP_saveImage_testLoop_ok env cfg ep st.params b bs l'
      rw [← hb]; exact hres
    rw [hb]
    simp [List.countP_append, List.countP_cons, List.countP_nil,
      Event.isSaveImage, h1]

theorem test_ok_evalForward (env : Env P O I) (cfg : TrainingConfig)
    (testL : Loader I) (ep : ℕ) (st : NetState P O) (l : ℚ)
    (h : (test env cfg testL ep st).result = Except.ok l) :
    ∀ j, j < testL.batches.length →
      EventKind.evalForward ep j ∈ (test env cfg testL ep st).events.map Event.kind := by
  intro j hj
  rcases hres : (testLoop env cfg ep st.params 0 testL.batches).result with e | l' <;>
    simp only [test, hres] at h ⊢
  · simp at h
  · have hm := testLoop_ok_evalForward env cfg ep st.params testL.batches 0 l' j hres hj
    simp only [Nat.zero_add] at hm
    have : EventKind.evalForward ep j ∈
        (testLoop env cfg ep st.params 0 testL.batches).events.map Event.kind := by
      exact List.mem_map_of_mem Event.kind hm
    simp only [List.map_append, List.mem_append]
    exact Or.inl this

theorem train_optStep_mem (env : Env P O I) (cfg : TrainingConfig)
    (trainL : Loader I) (ep : ℕ) (st : NetState P O) :
    ∀ j, j < trainL.batches.length →
      EventKind.optStep ep j ∈ (train env cfg trainL ep st).events.map Event.kind := by
  intro j hj
  rw [train_events_kinds]
  simp only [List.mem_append, List.mem_flatMap]
  left
  refine ⟨j, ?_, ?_⟩
  · simp [List.mem_range'_1]; omega
  · simp [trainBatchKinds]

/-! ## Helper lemmas about the epoch loop -/

theorem countP_saveData_trainingEpochs (env : Env P O I) (cfg : TrainingConfig)
    (trainL testL : Loader I) :
    ∀ (remaining epoch : ℕ) (st : NetState P O) (trH teH : List ℚ),
      (trainingEpochs env cfg trainL testL epoch remaining st trH teH).events.countP
        Event.isSaveTrainingData = 0
  | 0, epoch, st, trH, teH => by simp [trainingEpochs]
  | remaining + 1, epoch, st, trH, teH => by
    have ih := countP_saveData_trainingEpochs env cfg trainL testL remaining (epoch + 1)
    rcases hte : (test env cfg testL epoch
        (train env cfg trainL epoch st).state).result with e | l <;>
      simp only [trainingEpochs, hte] <;>
      simp [List.countP_append, countP_saveData_train, countP_saveData_test, ih]

theorem trainingEpochs_ok_spec (env : Env P O I) (cfg : TrainingConfig)
    (trainL testL : Loader I) :
    ∀ (remaining epoch : ℕ) (st : NetState P O) (trH teH : List ℚ)
      (d : TrainingData P O),
      (trainingEpochs env cfg trainL testL epoch remaining st trH teH).result =
        Except.ok d →
      d.historic_testing_loss.length = teH.length + remaining ∧
      d.historic_training_loss.length =
        trH.length + remaining * trainL.batches.length ∧
      summaryTags
          (trainingEpochs env cfg trainL testL epoch remaining st trH teH).events =
        (List.range' epoch remaining).flatMap (fun e => [(e, true), (e, false)]) ∧
      (testL.batches ≠ [] →
        (trainingEpochs env cfg trainL testL epoch remaining st trH teH).events.countP
          Event.isSaveImage = remaining) ∧
      (∀ e j, epoch ≤ e → e < epoch + remaining →
        (j < trainL.batches.length →
          EventKind.optStep e j ∈
            (trainingEpochs env cfg trainL testL epoch remaining st trH
              teH).events.map Event.kind) ∧
        (j < testL.batches.length →
          EventKind.evalForward e j ∈
            (trainingEpochs env cfg trainL testL epoch remaining st trH
              teH).events.map Event.kind))
  | 0, epoch, st, trH, teH, d => by
    intro h
    simp only [trainingEpochs] at h ⊢
    have hd : (⟨st, trH, teH⟩ : TrainingData P O) = d := by
      simpa using h
    subst hd
    refine ⟨by simp, by simp, by simp [summaryTags], by simp, ?_⟩
    intro e j h1 h2
    omega
  | remaining + 1, epoch, st, trH, teH, d => by
    intro h
    rcases hte : (test env cfg testL epoch
        (train env cfg trainL epoch st).state).result with e | l
    · simp only [trainingEpochs, hte] at h
      simp at h
    · simp only [trainingEpochs, hte] at h ⊢
      obtain ⟨A, B, C, D, E⟩ :=
        trainingEpochs_ok_spec env cfg trainL testL remaining (epoch + 1)
          (test env cfg testL epoch (train env cfg trainL epoch st).state).state
          (trH ++ (train env cfg trainL epoch st).epoch_loss) (teH ++ [l]) d h
      refine ⟨?_, ?_, ?_, ?_, ?_⟩
      · simp only [List.length_append, List.length_singleton] at A
        omega
      · simp only [List.length_append, train_epoch_loss_length] at B
        rw [Nat.succ_mul]
        omega
      · simp only [summaryTags, List.filterMap_append] at C ⊢
        rw [List.range'_succ, List.flatMap_cons]
        have h1 : summaryTags (train env cfg trainL epoch st).events = [(epoch, true)] :=
          summaryTags_train env cfg trainL epoch st
        have h2 : summaryTags
            (test env cfg testL epoch (train env cfg trainL epoch st).state).events =
            [(epoch, false)] :=
          summaryTags_test_ok env cfg testL epoch
            (train env cfg trainL epoch st).state l hte
        simp only [summaryTags] at h1 h2
        rw [h1, h2, C]
        simp
      · intro hb
        obtain ⟨b, bs, hb'⟩ := List.exists_cons_of_ne_nil hb
        have h1 : (test env cfg testL epoch
            (train env cfg trainL epoch st).state).events.countP Event.isSaveImage = 1 :=
          countP_saveImage_test_ok env cfg testL epoch
            (train env cfg trainL epoch st).state l b bs hb' hte
        simp [List.countP_append, countP_saveImage_train, h1, D hb]
        omega
      · intro e j h1 h2
        rcases Nat.eq_or_lt_of_le h1 with he | he
        · subst he
          constructor
          · intro hj
            have hm := train_optStep_mem env cfg trainL epoch st j hj
            simp only [List.map_append, List.mem_append]
            exact Or.inl (Or.inl hm)
          · intro hj
            have hm := test_ok_evalForward env cfg testL epoch
              (train env cfg trainL epoch st).state l hte j hj
            simp only [List.map_append, List.mem_append]
            exact Or.inl (Or.inr hm)
        · have hE := E e j he (by omega)
          constructor
          · intro hj
            have hm := hE.1 hj
            simp only [List.map_append, List.mem_append]
            exact Or.inr hm
          · intro hj
            have hm := hE.2 hj
            simp only [List.map_append, List.mem_append]
            exact Or.inr hm

/-! ## Theorems for the claims -/

/-- C1: For every training batch in every epoch, the training step
performs, in this order: a forward pass producing reconstruction, mean
and log-variance; evaluation of the ELBO loss on that batch; zeroing of
the optimizer gradients; backpropagation of the loss; and an optimizer
step — before the loop advances to the next batch.  The trace of a
training epoch is exactly the concatenation, in batch-index order, of
these per-batch blocks (each followed by its conditional progress log),
closed by the epoch summary. -/
theorem train_batch_operations_in_order (env : Env P O I) (cfg : TrainingConfig)
    (trainL : Loader I) (ep : ℕ) (st : NetState P O) :
    (train env cfg trainL ep st).events.map Event.kind =
      (List.range trainL.batches.length).flatMap (fun i =>
        [EventKind.forwardPass ep i, EventKind.lossEval ep i,
         EventKind.zeroGrad ep i, EventKind.backward ep i,
         EventKind.optStep ep i] ++
        (if i % cfg.log_interval = 0 then [EventKind.logLine ep i] else [])) ++
      [EventKind.epochSummary ep] := by
  rw [train_events_kinds, List.range_eq_range']
  rfl

/-- C2: The loss minimized during training and reported during
evaluation is the ELBO — a reconstruction term plus the KL-divergence
between the posterior given by the mean and log-variance the model
outputs and a standard normal prior — and the same `variational_ELBO`
function is applied to training batches and to test batches: the loss a
training step backpropagates is `variational_ELBO` of the forward pass,
the accumulated test loss is the sum of `variational_ELBO` over the test
batches, and `variational_ELBO` decomposes as reconstruction plus KL. -/
theorem elbo_loss_shared_by_train_and_test (env : Env P O I)
    (cfg : TrainingConfig) (ep i : ℕ) (st : NetState P O) (b : List I) (p : P)
    (bs : List (List I)) (t : ℚ) (rb : List I) (mu lv : List ℚ)
    (h : (testLoop env cfg ep p 0 bs).result = Except.ok t) :
    (trainStep env cfg ep i st b).loss =
      variational_ELBO env.recon env.exp (env.forward st.params b).1 b
        (env.forward st.params b).2.1 (env.forward st.params b).2.2 ∧
    t = (bs.map (fun d =>
          variational_ELBO env.recon env.exp (env.forward p d).1 d
            (env.forward p d).2.1 (env.forward p d).2.2)).sum ∧
    variational_ELBO env.recon env.exp rb b mu lv =
      reconstructionLoss env.recon rb b + klDivergence env.exp mu lv :=
  ⟨rfl, testLoop_ok_sum env cfg ep p bs 0 t h, rfl⟩

/-- Witness for C2 at the concrete instantiation. -/
theorem elbo_loss_shared_witness :
    (testLoop cEnv cCfg 1 (0 : ℚ) 0 cTestLoader.batches).result = Except.ok 0 ∧
    (trainStep cEnv cCfg 1 0 cSt [3]).loss =
      variational_ELBO cEnv.recon cEnv.exp (cEnv.forward cSt.params [3]).1 [3]
        (cEnv.forward cSt.params [3]).2.1 (cEnv.forward cSt.params [3]).2.2 :=
  ⟨by with_unfolding_all decide,
   (elbo_loss_shared_by_train_and_test cEnv cCfg 1 0 cSt [3] 0 cTestLoader.batches
      0 [] [] [] (by with_unfolding_all decide)).1⟩

/-- C3: A successful run trains for exactly `epochs` epochs numbered
1 through `epochs`; each epoch is one full pass over the training loader
(with a gradient update on every batch) followed by one full pass over
the test loader, in that order (the summary projection of the trace is
`train 1, test 1, train 2, test 2, …`); the per-epoch training losses
(one per training batch) are appended to `historic_training_loss` and
the per-epoch test loss to `historic_testing_loss` each epoch. -/
theorem epoch_loop_structure (env : Env P O I) (cfg : TrainingConfig)
    (trainL testL : Loader I) (st : NetState P O) (d : TrainingData P O)
    (h : (start_training env cfg trainL testL st).result = Except.ok d) :
    summaryTags (start_training env cfg trainL testL st).events =
      (List.range' 1 cfg.epochs).flatMap (fun e => [(e, true), (e, false)]) ∧
    d.historic_testing_loss.length = cfg.epochs ∧
    d.historic_training_loss.length = cfg.epochs * trainL.batches.length ∧
    ∀ e j, 1 ≤ e → e ≤ cfg.epochs →
      (j < trainL.batches.length →
        EventKind.optStep e j ∈
          (start_training env cfg trainL testL st).events.map Event.kind) ∧
      (j < testL.batches.length →
        EventKind.evalForward e j ∈
          (start_training env cfg trainL testL st).events.map Event.kind) := by
  rcases hres : (trainingEpochs env cfg trainL testL 1 cfg.epochs st [] []).result
    with e | d'
  · simp [start_training, hres] at h
  · have hd : d' = d := by simpa [start_training, hres] using h
    subst hd
    obtain ⟨A, B, C, D, E⟩ :=
      trainingEpochs_ok_spec env cfg trainL testL cfg.epochs 1 st [] [] d' hres
    simp only [start_training, hres]
    refine ⟨?_, ?_, ?_, ?_⟩
    · simp only [summaryTags, List.filterMap_append] at C ⊢
      simp [C, summaryTag]
    · simpa using A
    · simpa using B
    · intro e j h1 h2
      have hE := E e j h1 (by omega)
      constructor
      · intro hj
        have hm := hE.1 hj
        simp only [List.map_append, List.mem_append]
        exact Or.inl hm
      · intro hj
        have hm := hE.2 hj
        simp only [List.map_append, List.mem_append]
        exact Or.inl hm

/-- Witness for C3 at the concrete instantiation. -/
theorem epoch_loop_structure_witness :
    (start_training cEnv cCfg cTrainLoader cTestLoader cSt).result =
      Except.ok cData ∧
    summaryTags (start_training cEnv cCfg cTrainLoader cTestLoader cSt).events =
      (List.range' 1 cCfg.epochs).flatMap (fun e => [(e, true), (e, false)]) ∧
    cData.historic_testing_loss.length = cCfg.epochs :=
  ⟨by with_unfolding_all decide,
   (epoch_loop_structure cEnv cCfg cTrainLoader cTestLoader cSt cData
      (by with_unfolding_all decide)).1,
   (epoch_loop_structure cEnv cCfg cTrainLoader cTestLoader cSt cData
      (by with_unfolding_all decide)).2.1⟩

/-- C4 counterexample: The claim says the loss curves are persisted
"periodically across epochs"; in a successful 3-epoch run the
`save_training_data` persistence happens exactly once, so in particular
not once per epoch (nor at any intermediate point). -/
theorem loss_curves_not_persisted_periodically :
    (start_training cEnv cCfg3 cTrainLoader cTestLoader cSt).events.countP
        Event.isSaveTrainingData = 1 ∧
    ¬ (cCfg3.epochs ≤
        (start_training cEnv cCfg3 cTrainLoader cTestLoader cSt).events.countP
          Event.isSaveTrainingData) := by
  with_unfolding_all decide

/-- C4 amended: Every epoch of a successful run writes exactly one
sample-reconstruction image (`epochs` in total), and the training and
testing loss curves are persisted exactly once, after the final epoch:
the one `save_training_data` event is the last event of the run. -/
theorem losses_saved_once_after_final_epoch (env : Env P O I)
    (cfg : TrainingConfig) (trainL testL : Loader I) (st : NetState P O)
    (d : TrainingData P O) (b0 : List I) (bs0 : List (List I))
    (hb : testL.batches = b0 :: bs0)
    (h : (start_training env cfg trainL testL st).result = Except.ok d) :
    (start_training env cfg trainL testL st).events.countP
      Event.isSaveImage = cfg.epochs ∧
    (start_training env cfg trainL testL st).events.countP
      Event.isSaveTrainingData = 1 ∧
    (start_training env cfg trainL testL st).events.getLast? =
      some (Event.saveTrainingData cfg.output_dir_name
        d.historic_training_loss d.historic_testing_loss) := by
  rcases hres : (trainingEpochs env cfg trainL testL 1 cfg.epochs st [] []).result
    with e | d'
  · simp [start_training, hres] at h
  · have hd : d' = d := by simpa [start_training, hres] using h
    subst hd
    obtain ⟨A, B, C, D, E⟩ :=
      trainingEpochs_ok_spec env cfg trainL testL cfg.epochs 1 st [] [] d' hres
    have hnil : testL.batches ≠ [] := by rw [hb]; exact List.cons_ne_nil b0 bs0
    simp only [start_training, hres]
    refine ⟨?_, ?_, ?_⟩
    · simp [List.countP_append, List.countP_cons, List.countP_nil,
        Event.isSaveImage, D hnil]
    · simp [List.countP_append, List.countP_cons, List.countP_nil,
        Event.isSaveTrainingData, countP_saveData_trainingEpochs]
    · exact List.getLast?_concat _

/-- Witness for the amended C4 at the concrete instantiation. -/
theorem losses_saved_once_witness :
    (start_training cEnv cCfg cTrainLoader cTestLoader cSt).result =
      Except.ok cData ∧
    (start_training cEnv cCfg cTrainLoader cTestLoader cSt).events.countP
      Event.isSaveTrainingData = 1 :=
  ⟨by with_unfolding_all decide,
   (losses_saved_once_after_final_epoch cEnv cCfg cTrainLoader cTestLoader cSt
      cData [5] [] rfl (by with_unfolding_all decide)).2.1⟩

/-- C5: During a training epoch, a progress log line is printed for
exactly those batches whose zero-based index is a multiple of the
configured log interval (the interval assumed positive). -/
theorem progress_logged_iff_interval_divides (env : Env P O I)
    (cfg : TrainingConfig) (trainL : Loader I) (ep j : ℕ) (st : NetState P O)
    (_hpos : 0 < cfg.log_interval) :
    (EventKind.logLine ep j ∈
        (train env cfg trainL ep st).events.map Event.kind) ↔
      (j < trainL.batches.length ∧ j % cfg.log_interval = 0) := by
  rw [train_events_kinds]
  simp only [List.mem_append, List.mem_flatMap, List.mem_range'_1,
    List.mem_singleton]
  constructor
  · rintro (⟨i, ⟨hi0, hilen⟩, hmem⟩ | hmem)
    · simp only [trainBatchKinds, List.mem_append, List.mem_cons,
        List.not_mem_nil, or_false] at hmem
      rcases hmem with (h | h | h | h | h) | h
      · exact absurd h (by simp)
      · exact absurd h (by simp)
      · exact absurd h (by simp)
      · exact absurd h (by simp)
      · exact absurd h (by simp)
      · by_cases hmod : i % cfg.log_interval = 0
        · rw [if_pos hmod] at h
          simp only [List.mem_singleton, EventKind.logLine.injEq] at h
          obtain ⟨-, hji⟩ := h
          subst hji
          exact ⟨by omega, hmod⟩
        · rw [if_neg hmod] at h
          simp at h
    · exact absurd hmem (by simp)
  · rintro ⟨hlt, hmod⟩
    left
    refine ⟨j, ⟨by omega, by omega⟩, ?_⟩
    simp [trainBatchKinds, hmod]

/-- Witness for C5 at the concrete instantiation. -/
theorem progress_logged_witness :
    0 < cCfg.log_interval ∧
    ((EventKind.logLine 1 0 ∈
        (train cEnv cCfg cTrainLoader 1 cSt).events.map Event.kind) ↔
      (0 < cTrainLoader.batches.length ∧ 0 % cCfg.log_interval = 0)) :=
  ⟨by decide,
   progress_logged_iff_interval_divides cEnv cCfg cTrainLoader 1 0 cSt (by decide)⟩

/-- C6: For each epoch, the sample-image grid is produced from the
first test batch only: the trace of `test` contains exactly one image
save, whose grid is `n = min(batch size, 8)` original images followed by
the corresponding `n` reconstructions, with `n` images per row, written
to `<output_dir>/reconstruction_<epoch>.png`.  (The first test batch is
assumed to have `batch_size` images, as is its reconstruction — the
`view` call requires the latter anyway.) -/
theorem sample_grid_from_first_test_batch (env : Env P O I)
    (cfg : TrainingConfig) (testL : Loader I) (ep : ℕ) (st : NetState P O)
    (b0 : List I) (bs0 : List (List I))
    (hb : testL.batches = b0 :: bs0)
    (hlen : b0.length = cfg.batch_size)
    (hrec : (env.forward st.params b0).1.length = cfg.batch_size) :
    (test env cfg testL ep st).events.filter Event.isSaveImage =
      [Event.saveImage
        (cfg.output_dir_name ++ "/reconstruction_" ++ Nat.repr ep ++ ".png")
        (b0.take (min cfg.batch_size 8) ++
          (env.forward st.params b0).1.take (min cfg.batch_size 8))
        (min cfg.batch_size 8)] := by
  have hview : tensorView cfg.batch_size (env.forward st.params b0).1 =
      Except.ok (env.forward st.params b0).1 := by
    simp [tensorView, hrec]
  have hrest : (testLoop env cfg ep st.params 1 bs0).events.filter
      Event.isSaveImage = [] := by
    rw [List.filter_eq_nil_iff]
    intro a ha
    have := countP_saveImage_testLoop_pos env cfg ep st.params bs0 0
    rw [List.countP_eq_zero] at this
    exact this a ha
  have hloop : (testLoop env cfg ep st.params 0 testL.batches).events.filter
      Event.isSaveImage =
      [Event.saveImage (reconstructionFile cfg.output_dir_name ep)
        (b0.take (min b0.length 8) ++
          (env.forward st.params b0).1.take (min b0.length 8))
        (min b0.length 8)] := by
    rw [hb]
    simp only [testLoop, hview]
    simp [List.filter_append, hrest, Event.isSaveImage]
  rw [hlen] at hloop
  rcases hres : (testLoop env cfg ep st.params 0 testL.batches).result with e | l <;>
    simp only [test, hres]
  · rw [hloop]
    simp [reconstructionFile]
  · rw [List.filter_append, hloop]
    simp [Event.isSaveImage, reconstructionFile]

/-- Witness for C6 at the concrete instantiation. -/
theorem sample_grid_witness :
    cTestLoader.batches = [5] :: [] ∧
    (test cEnv cCfg cTestLoader 1 cSt).events.filter Event.isSaveImage =
      [Event.saveImage
        (cCfg.output_dir_name ++ "/reconstruction_" ++ Nat.repr 1 ++ ".png")
        (([5] : List ℕ).take (min cCfg.batch_size 8) ++
          (cEnv.forward cSt.params [5]).1.take (min cCfg.batch_size 8))
        (min cCfg.batch_size 8)] :=
  ⟨rfl,
   sample_grid_from_first_test_batch cEnv cCfg cTestLoader 1 cSt [5] []
     rfl rfl rfl⟩

/-- C7: If the `--optimizer` argument is any string other than
`adam`, `adagrad` or `adadelta`, the program fails with an assertion
error before any training occurs (the whole run aborts with no trace);
for each of the three supported values the corresponding optimizer is
constructed with the configured learning rate. -/
theorem optimizer_asserted_then_selected (name : String) (lr : ℚ)
    (env : Env P O I) (cfg : TrainingConfig) (trainL testL : Loader I)
    (st : NetState P O)
    (h : ¬ (name = "adam" ∨ name = "adagrad" ∨ name = "adadelta")) :
    runProgram name lr env cfg trainL testL st =
      Except.error StartupError.assertionError ∧
    selectOptimizer "adam" lr = Except.ok (OptimizerKind.adam, lr) ∧
    selectOptimizer "adagrad" lr = Except.ok (OptimizerKind.adagrad, lr) ∧
    selectOptimizer "adadelta" lr = Except.ok (OptimizerKind.adadelta, lr) := by
  refine ⟨?_, ?_, ?_, ?_⟩
  · simp [runProgram, selectOptimizer, h]
  · rw [selectOptimizer, if_pos (Or.inl rfl), if_pos rfl]
  · rw [selectOptimizer, if_pos (Or.inr (Or.inl rfl)),
      if_neg (by decide : ¬ ("adagrad" = "adam")), if_pos rfl]
  · rw [selectOptimizer, if_pos (Or.inr (Or.inr rfl)),
      if_neg (by decide : ¬ ("adadelta" = "adam")),
      if_neg (by decide : ¬ ("adadelta" = "adagrad"))]

/-- Witness for C7: the unsupported name `sgd` aborts the program. -/
theorem optimizer_asserted_witness :
    runProgram "sgd" 1 cEnv cCfg cTrainLoader cTestLoader cSt =
      Except.error StartupError.assertionError :=
  (optimizer_asserted_then_selected "sgd" 1 cEnv cCfg cTrainLoader cTestLoader cSt
    (by decide)).1

/-- C8: Any exception raised during training is caught by `main`,
which prints the formatted traceback (the final event) and returns it
instead of propagating; `save_training_data` is never reached, so the
trace of such a run contains no persistence of the loss histories. -/
theorem main_catches_exception_without_saving (env : Env P O I)
    (cfg : TrainingConfig) (trainL testL : Loader I) (st : NetState P O)
    (e : TrainError)
    (h : (start_training env cfg trainL testL st).result = Except.error e) :
    (main env cfg trainL testL st).result = MainResult.caught e ∧
    (main env cfg trainL testL st).events.countP Event.isSaveTrainingData = 0 ∧
    (main env cfg trainL testL st).events.getLast? =
      some (Event.printTrace e) := by
  rcases hres : (trainingEpochs env cfg trainL testL 1 cfg.epochs st [] []).result
    with e' | d
  · have he : e' = e := by simpa [start_training, hres] using h
    subst he
    simp only [main, start_training, hres]
    refine ⟨trivial, ?_, ?_⟩
    · simp [List.countP_append, List.countP_cons, List.countP_nil,
        Event.isSaveTrainingData, countP_saveData_trainingEpochs]
    · rw [← List.cons_append]
      exact List.getLast?_concat _
  · simp [start_training, hres] at h

/-- Witness for C8: the environment whose reconstruction has the wrong
shape makes epoch 1's test pass raise, and `main` catches it. -/
theorem main_catches_witness :
    (start_training cEnvBad cCfg cTrainLoader cTestLoader cSt).result =
      Except.error (TrainError.shapeMismatch 1 0) ∧
    (main cEnvBad cCfg cTrainLoader cTestLoader cSt).result =
      MainResult.caught (TrainError.shapeMismatch 1 0) :=
  ⟨by with_unfolding_all decide,
   (main_catches_exception_without_saving cEnvBad cCfg cTrainLoader cTestLoader
      cSt (TrainError.shapeMismatch 1 0) (by with_unfolding_all decide)).1⟩

/-- C9: The evaluation pass leaves the model parameters, the
gradients and the optimizer state unchanged (it only switches the model
to evaluation mode), its trace contains no backward pass, no optimizer
step and no gradient zeroing, and its result depends only on the
parameters it is given — hence each per-epoch test loss is computed with
exactly the parameters produced by that epoch's training pass. -/
theorem test_is_evaluation_only (env : Env P O I) (cfg : TrainingConfig)
    (testL : Loader I) (ep : ℕ) (st : NetState P O) (g2 : P) (o2 : O)
    (m2 : Bool) (ev : Event I)
    (hev : ev ∈ (test env cfg testL ep st).events) :
    ev.isGradientOp = false ∧
    (test env cfg testL ep st).state =
      { params := st.params, grads := st.grads, optState := st.optState,
        trainingMode := false } ∧
    (test env cfg testL ep
        { params := st.params, grads := g2, optState := o2,
          trainingMode := m2 }).result =
      (test env cfg testL ep st).result := by
  refine ⟨test_no_gradient_op env cfg testL ep st ev hev,
    test_state env cfg testL ep st, ?_⟩
  rcases hres : (testLoop env cfg ep st.params 0 testL.batches).result with e | l <;>
    simp [test, hres]

/-- Witness for C9 at the concrete instantiation. -/
theorem test_is_evaluation_only_witness :
    (Event.evalForward 1 0 : Event ℕ) ∈ (test cEnv cCfg cTestLoader 1 cSt).events ∧
    (Event.evalForward 1 0 : Event ℕ).isGradientOp = false :=
  ⟨by with_unfolding_all decide,
   (test_is_evaluation_only cEnv cCfg cTestLoader 1 cSt 7 7 true
      (Event.evalForward 1 0) (by with_unfolding_all decide)).1⟩

end VaeTrain
